import Mathlib

/-!
Shallow embedding of the train-schedule renderer `src/visualize.py`
(repository TyOverby/trains) and verification of the specification's
claims about it.

Modelling conventions:
* Instants (Python `datetime` values localized to the display timezone)
  are modelled as `Int` microseconds on a proleptic-Gregorian timeline;
  wall-clock datetimes that the code manipulates field-wise are the
  structure `PyDateTime` below, with `toMicros` giving the instant.
  `datetime` comparison and subtraction coincide with comparison and
  subtraction of `toMicros` values.
* Python float division in `time_to_x` is modelled with exact rational
  arithmetic (`ℚ`); `int(...)` truncation toward zero is `truncToZero`.
  All boundary computations settled here are exact in binary floating
  point as well.
* Python `//` (floor division) is Lean `Int` division (`Int.ediv`,
  written `/`), which also floors for the positive divisors used here.
* The bitmap font `departure.json` is a data file, not source code; the
  loaded table `FONT_DATA` is therefore a parameter `font : Font` of the
  rendering functions, and every result below is generic in it.
* The PIL image is replaced by a trace of drawing operations (`Op`)
  together with a pixel-level interpreter (`applyOp`); `create_image`
  is the interpreted trace.  One-bit colors: `false` = black (0),
  `true` = white (1), as in the source's `BLACK = 0`, `WHITE = 1`.
-/


/-! ## Constants (src/visualize.py lines 14-25, 140-143) -/

def HOURS_TO_SHOW : Nat := 3

def WIDTH : Int := 800

def HEIGHT : Int := 480

def LEFT_MARGIN : Int := 50

def RIGHT_MARGIN : Int := 40

def TOP_MARGIN : Int := 0

def BOTTOM_MARGIN : Int := 40

def BLACK : Bool := false

def WHITE : Bool := true

def CHAR_WIDTH : Int := 7

def CHAR_HEIGHT : Int := 11

def CHAR_SPACING : Int := 1

def FONT_SCALE : Int := 2

/-! ## Datetimes (`round_down_to_30min`, comparisons, `timedelta`) -/

/-- A Python `datetime` value (already localized to the display
timezone), with the calendar fields the code reads and writes. -/
structure PyDateTime where
  year : Int
  month : Nat
  day : Nat
  hour : Nat
  minute : Nat
  second : Nat
  microsecond : Nat
deriving DecidableEq

/-- Day number of a proleptic-Gregorian calendar date, up to a constant
offset (the offset is irrelevant: only differences and times-of-day are
ever consumed).  Models CPython `date.toordinal`. -/
def daysFromCivil (y : Int) (m d : Nat) : Int :=
  let y2 : Int := if m ≤ 2 then y - 1 else y
  let mp : Int := ((m : Int) + 9) % 12
  y2 * 365 + y2 / 4 - y2 / 100 + y2 / 400 + (153 * mp + 2) / 5 + (d : Int) - 1

/-- The instant of a datetime, in microseconds.  Python comparison and
subtraction of datetimes agree with comparison and subtraction of these
values. -/
def toMicros (t : PyDateTime) : Int :=
  daysFromCivil t.year t.month t.day * 86400000000
    + (t.hour : Int) * 3600000000 + (t.minute : Int) * 60000000
    + (t.second : Int) * 1000000 + (t.microsecond : Int)

/-- `round_down_to_30min` (lines 235-239): replace the minute with
`(minute // 30) * 30` and zero out seconds and microseconds. -/
def round_down_to_30min (t : PyDateTime) : PyDateTime :=
  { t with minute := t.minute / 30 * 30, second := 0, microsecond := 0 }

/-- The time window derived in `create_image` (lines 316-317):
`start_time = round_down_to_30min(now)`, `end = start_time +
timedelta(hours=HOURS_TO_SHOW)`, given as (start, end) instants. -/
def window_of (now : PyDateTime) : Int × Int :=
  let s := toMicros (round_down_to_30min now)
  (s, s + (HOURS_TO_SHOW : Int) * 3600000000)

/-! ## Time-string parsing and the visibility filter (lines 242-290) -/

/-- Model of one optional ISO time-string field of the input JSON:
`none` is an absent/null/empty value (falsy in Python), `some none` is a
present string rejected by `datetime.fromisoformat`, and
`some (some t)` is a string parsing to the instant `t` (µs, already in
the display timezone). -/
abbrev TimeField := Option (Option Int)

/-- `parse_time` (lines 242-249): `None`/empty gives `None`, an
unparseable string gives `None` (the `ValueError` branch), otherwise
the parsed, localized instant. -/
def parse_time : TimeField → Option Int
  | none => none
  | some none => none
  | some (some t) => some t

/-- One endpoint record of a segment (`from`/`to` of the input JSON):
the renderer reads `station_code` and the `actual`/`scheduled` times. -/
structure StationStop where
  station_code : String
  actual : TimeField
  scheduled : TimeField
deriving DecidableEq

/-- A segment: one train's occupancy between two requested stations. -/
structure Segment where
  fromStop : StationStop
  toStop : StationStop
deriving DecidableEq

/-- Python `a or b` on two optional strings: falsy (`None`/empty)
falls through to `b`. -/
def pyOr (a b : TimeField) : TimeField :=
  match a with
  | none => b
  | some x => some x

/-- `get_segment_times` (lines 252-256). -/
def get_segment_times (s : Segment) : Option Int × Option Int :=
  (parse_time (pyOr s.fromStop.actual s.fromStop.scheduled),
   parse_time (pyOr s.toStop.actual s.toStop.scheduled))

/-- A train record: the renderer reads `route_name` (with falsy
fallback, hence `Option`), `train_num`, and the segment list. -/
structure Train where
  route_name : Option String
  train_num : String
  segments : List Segment
deriving DecidableEq

/-- A filtered train as built by `filter_trains_in_window`: the train
plus its `_segments` (each with parsed `_dep`/`_arr`) and `_first_dep`. -/
structure VisTrain where
  train : Train
  psegs : List (Segment × Int × Int)
  firstDep : Int
deriving DecidableEq

/-- The inner loop of lines 272-280: keep each segment whose departure
and arrival both parse, pairing it with the parsed times. -/
def parseSegments (segs : List Segment) : List (Segment × Int × Int) :=
  segs.filterMap fun seg =>
    match get_segment_times seg with
    | (some dep, some arr) => some (seg, dep, arr)
    | _ => none

/-- The first segment's departure, when the train has a first segment
and that departure parses.  Folds the source's two guards
`if not segments: continue` and `if first_dep is None: continue`
(lines 263-269). -/
def firstDepOf (t : Train) : Option Int :=
  match t.segments with
  | [] => none
  | s0 :: _ => (get_segment_times s0).1

/-- The accumulation loop of `filter_trains_in_window` (lines 261-288),
before the final sort.  (`parseSegments train.segments` is the loop's
local `parsed_segments`.) -/
def filterTrainsAux (now endT : Int) : List Train → List VisTrain
  | [] => []
  | train :: rest =>
    match firstDepOf train with
    | none => filterTrainsAux now endT rest
    | some first_dep =>
      if now ≤ first_dep ∧ first_dep ≤ endT then
        if parseSegments train.segments ≠ [] then
          { train := train, psegs := parseSegments train.segments, firstDep := first_dep }
            :: filterTrainsAux now endT rest
        else filterTrainsAux now endT rest
      else filterTrainsAux now endT rest

/-- `filter_trains_in_window` (lines 259-290).  The `startT` argument
is accepted and unused, exactly as `start_time` is in the source; the
final `filtered.sort(key=...)` is a stable sort on `_first_dep`. -/
def filter_trains_in_window (trains : List Train) (startT endT now : Int) :
    List VisTrain :=
  (filterTrainsAux now endT trains).mergeSort fun a b => a.firstDep ≤ b.firstDep

/-- The visibility condition exactly as the specification states it
(§4.1): at least one segment, parseable first departure, and
`first_departure ∈ [now, end]`.  Written from the spec's words for
comparison with the code's behaviour. -/
def claimVisibleCond (t : Train) (now endT : Int) : Bool :=
  match firstDepOf t with
  | none => false
  | some fd => decide (now ≤ fd ∧ fd ≤ endT)

/-! ## Coordinate mapping (lines 293-303) -/

/-- Python `int(...)`: truncation toward zero. -/
def truncToZero (q : ℚ) : Int :=
  if 0 ≤ q then ⌊q⌋ else ⌈q⌉

/-- `time_to_x` (lines 293-298): seconds-ratio of the elapsed time in
the window, scaled onto the chart width and truncated to a pixel.
`total_seconds()` is division of microseconds by 10⁶. -/
def time_to_x (t startT endT : Int) : Int :=
  let total : ℚ := ((endT - startT : Int) : ℚ) / 1000000
  let elapsed : ℚ := ((t - startT : Int) : ℚ) / 1000000
  let frac : ℚ := elapsed / total
  truncToZero ((LEFT_MARGIN : ℚ) + frac * ((WIDTH : ℚ) - (LEFT_MARGIN : ℚ) - (RIGHT_MARGIN : ℚ)))

/-- `format_time_label` (lines 301-303): `strftime("%-I:%M")` — 12-hour
clock without padding, two-digit minutes.  Hour and minute are the
time-of-day components of the instant. -/
def format_time_label (m : Int) : String :=
  let hour := m / 3600000000 % 24
  let minute := m / 60000000 % 60
  let h12 := if hour % 12 = 0 then 12 else hour % 12
  toString h12 ++ ":" ++ (if minute < 10 then "0" ++ toString minute else toString minute)

/-! ## Label collision resolver (lines 469-483) -/

def min_gap : Int := 4

/-- The greedy overlap scan of lines 470-483: keep a candidate
`(left, right, label)` iff `left > last_right + min_gap`, updating
`last_right` to the kept candidate's `right`. -/
def resolveFrom (last_right : Int) : List (Int × Int × String) → List (Int × Int × String)
  | [] => []
  | (left, right, label) :: rest =>
    if left > last_right + min_gap then
      (left, right, label) :: resolveFrom right rest
    else
      resolveFrom last_right rest

/-- The kept time labels of one row: the scan started from
`last_right = -1000` (line 471). -/
def resolve_labels (cands : List (Int × Int × String)) : List (Int × Int × String) :=
  resolveFrom (-1000) cands

/-! ## Glyphs, text measurement and drawing primitives (lines 28-232)

The font table `FONT_DATA` is loaded from the data file
`departure.json`, which is not part of the sources; the loaded table is
therefore a parameter `font : Font` below, and all results are generic
in it. -/

/-- One glyph: boolean pixel matrix plus declared advance width. -/
structure Glyph where
  pixels : List (List Bool)
  width : Int
deriving DecidableEq

/-- The loaded font table: `none` models `char not in FONT_DATA`. -/
abbrev Font := Char → Option Glyph

/-- The space character (usable where a character literal would be
awkward). -/
def spaceChar : Char := Char.ofNat 32

/-- A font table with no entries: every character misses and falls
back to `CHAR_WIDTH`.  Used to instantiate font-generic results. -/
def emptyFont : Font := fun _ => none

/-- `get_text_width` (lines 185-196): sum of advance widths (scaled),
with `CHAR_WIDTH` fallback for unknown characters, plus scaled
inter-character spacing. -/
def get_text_width (font : Font) (text : String) (scale : Int) : Int :=
  if text = "" then 0
  else (text.toList.map fun c =>
          match font c with
          | some g => g.width * scale
          | none => CHAR_WIDTH * scale).sum
    + ((text.length : Int) - 1) * CHAR_SPACING * scale

/-- Text anchoring mode of `draw_text` (lines 171-182). -/
inductive Anchor where
  | left
  | center
  | right
deriving DecidableEq

/-- The anchor-adjusted horizontal extent `[left, right]` a string of
width `w` occupies when drawn at `x` (the adjustment `draw_text`
applies at lines 175-178). -/
def textExtent (x w : Int) : Anchor → Int × Int
  | .left => (x, x + w)
  | .center => (x - w / 2, x - w / 2 + w)
  | .right => (x - w, x)

/-- One recorded drawing operation of `create_image`.  `gridLine` is
the inline sparse-grid loop of lines 356-358 (every third pixel row);
the others correspond to the named primitives. -/
inductive Op where
  | rect (x1 y1 x2 y2 : Int) (color : Bool)
  | checkerboard (x1 y1 x2 y2 : Int)
  | hline (x1 x2 y : Int) (color : Bool)
  | vline (x y1 y2 : Int) (color : Bool) (dashed : Bool)
  | gridLine (x yTop yBot : Int)
  | text (x y : Int) (s : String) (color : Bool) (anchor : Anchor) (scale : Int)
deriving DecidableEq

/-- The 1-bit canvas: a total pixel assignment.  `true` = white. -/
abbrev Canvas := Int → Int → Bool

/-- `draw_rect` (lines 199-203): fill the rectangle clamped to the
canvas. -/
def draw_rect (c : Canvas) (x1 y1 x2 y2 : Int) (color : Bool) : Canvas :=
  fun a b =>
    if max 0 x1 ≤ a ∧ a < min WIDTH x2 ∧ max 0 y1 ≤ b ∧ b < min HEIGHT y2 then color
    else c a b

/-- `draw_checkerboard` (lines 206-216): black border on the
rectangle's nominal edges, 1-pixel checkerboard inside. -/
def draw_checkerboard (c : Canvas) (x1 y1 x2 y2 : Int) : Canvas :=
  fun a b =>
    if max 0 x1 ≤ a ∧ a < min WIDTH x2 ∧ max 0 y1 ≤ b ∧ b < min HEIGHT y2 then
      if b = y1 ∨ b = y2 - 1 ∨ a = x1 ∨ a = x2 - 1 then BLACK
      else if (a + b) % 2 = 0 then BLACK else WHITE
    else c a b

/-- `draw_hline` (lines 219-223). -/
def draw_hline (c : Canvas) (x1 x2 y : Int) (color : Bool) : Canvas :=
  fun a b =>
    if 0 ≤ y ∧ y < HEIGHT ∧ b = y ∧ max 0 x1 ≤ a ∧ a < min WIDTH x2 then color
    else c a b

/-- `draw_vline` (lines 226-232): dashed lines skip pixel rows with
`(py // 4) % 2 == 1`. -/
def draw_vline (c : Canvas) (x y1 y2 : Int) (color : Bool) (dashed : Bool) : Canvas :=
  fun a b =>
    if 0 ≤ x ∧ x < WIDTH ∧ a = x ∧ max 0 y1 ≤ b ∧ b < min HEIGHT y2
        ∧ ¬(dashed ∧ b / 4 % 2 = 1) then color
    else c a b

/-- The sparse vertical grid loop (lines 356-358): every pixel row
divisible by 3. -/
def drawGridLine (c : Canvas) (x yTop yBot : Int) : Canvas :=
  fun a b =>
    if a = x ∧ yTop ≤ b ∧ b < yBot ∧ b % 3 = 0 then BLACK
    else c a b

/-- The glyph lookup of `draw_char` (lines 148-151): an unknown
character falls back to the space glyph; if even that is missing,
nothing is drawn. -/
def lookupChar (font : Font) (ch : Char) : Option Glyph :=
  match font ch with
  | some g => some g
  | none => font spaceChar

/-- The width `draw_char` advances by (its return value, lines 151 and
168). -/
def char_width (font : Font) (ch : Char) (scale : Int) : Int :=
  match lookupChar font ch with
  | some g => g.width * scale
  | none => CHAR_WIDTH * scale

/-- Whether the glyph pixel block covering relative canvas position
`(rx, ry)` is set, at the given scale (the `scale × scale` block loop
of lines 157-166). -/
def glyphBit (g : Glyph) (scale rx ry : Int) : Bool :=
  if 0 ≤ rx ∧ 0 ≤ ry then
    ((g.pixels.getD (ry / scale).toNat []).getD (rx / scale).toNat false)
  else false

/-- `draw_char` (lines 146-168): draw the glyph's set pixels as
`scale × scale` blocks, clipped to the canvas. -/
def draw_char (c : Canvas) (font : Font) (x y : Int) (ch : Char) (color : Bool)
    (scale : Int) : Canvas :=
  match lookupChar font ch with
  | none => c
  | some g =>
    fun a b =>
      if 0 ≤ a ∧ a < WIDTH ∧ 0 ≤ b ∧ b < HEIGHT ∧ glyphBit g scale (a - x) (b - y) = true
      then color
      else c a b

/-- The character loop of `draw_text` (lines 180-182), advancing the
pen by each drawn width plus scaled spacing. -/
def drawTextChars (c : Canvas) (font : Font) (x y : Int) :
    List Char → Bool → Int → Canvas
  | [], _, _ => c
  | ch :: rest, color, scale =>
    drawTextChars (draw_char c font x y ch color scale) font
      (x + char_width font ch scale + CHAR_SPACING * scale) y rest color scale

/-- `draw_text` (lines 171-182): anchor-adjust the start position then
draw the characters. -/
def draw_text (c : Canvas) (font : Font) (x y : Int) (s : String) (color : Bool)
    (anchor : Anchor) (scale : Int) : Canvas :=
  let x0 := (textExtent x (get_text_width font s scale) anchor).1
  drawTextChars c font x0 y s.toList color scale

/-- Interpret one recorded operation on the canvas. -/
def applyOp (font : Font) (c : Canvas) : Op → Canvas
  | .rect x1 y1 x2 y2 color => draw_rect c x1 y1 x2 y2 color
  | .checkerboard x1 y1 x2 y2 => draw_checkerboard c x1 y1 x2 y2
  | .hline x1 x2 y color => draw_hline c x1 x2 y color
  | .vline x y1 y2 color dashed => draw_vline c x y1 y2 color dashed
  | .gridLine x yT yB => drawGridLine c x yT yB
  | .text x y s color anchor scale => draw_text c font x y s color anchor scale

/-- Interpret a trace of drawing operations, in order. -/
def applyOps (font : Font) (ops : List Op) (c : Canvas) : Canvas :=
  ops.foldl (applyOp font) c

/-- A train whose single segment has a parseable in-window departure
but no parseable arrival: the claim's condition predicts visibility,
the code excludes it (`if parsed_segments:` at line 282). -/
def cexTrain : Train :=
  { route_name := none, train_num := "1",
    segments := [{ fromStop := { station_code := "AAA", actual := some (some 100), scheduled := none },
                   toStop := { station_code := "BBB", actual := none, scheduled := none } }] }

/-- A fully parseable in-window train, used to instantiate theorems at
a concrete input. -/
def witTrain : Train :=
  { route_name := some "R", train_num := "2",
    segments := [{ fromStop := { station_code := "AAA", actual := some (some 100), scheduled := none },
                   toStop := { station_code := "BBB", actual := none, scheduled := some (some 200) } }] }

/-! ## Segment bars and buffer zones (lines 389-437) -/

/-- One entry of `segment_positions` (line 406): the clipped pixel
extent, the unclipped parsed times, and the segment record.  (The
source tuple also carries the loop index `seg_idx`, which is never
read afterwards.) -/
structure SegPos where
  x1 : Int
  x2 : Int
  dep : Int
  arr : Int
  seg : Segment
deriving DecidableEq

/-- The per-segment loop of lines 391-411: clip to the window, skip
segments fully outside it, and extend bars whose true arrival reaches
the window end to the canvas's right edge (line 403). -/
def segment_positions (startT endT : Int) : List (Segment × Int × Int) → List SegPos
  | [] => []
  | (seg, dep, arr) :: rest =>
    if min arr endT ≤ startT ∨ max dep startT ≥ endT then
      segment_positions startT endT rest
    else
      { x1 := time_to_x (max dep startT) startT endT,
        x2 := if arr ≥ endT then WIDTH else time_to_x (min arr endT) startT endT,
        dep := dep, arr := arr, seg := seg } :: segment_positions startT endT rest

/-- The "before" checkerboard buffer of lines 422-427. -/
def bufferBeforeOps (startT endT buffer_before : Int) (ps : List SegPos)
    (bar_top bar_bottom : Int) : List Op :=
  match ps with
  | [] => []
  | p0 :: _ =>
    if buffer_before > 0 then
      let buffer_start_x := time_to_x (max (p0.dep - buffer_before * 60000000) startT) startT endT
      if buffer_start_x < p0.x1 then [Op.checkerboard buffer_start_x bar_top p0.x1 bar_bottom]
      else []
    else []

/-- The "after" checkerboard buffer of lines 429-437: skipped entirely
when the block already touches the canvas edge (`block_x2 >= WIDTH`,
line 434). -/
def bufferAfterOps (startT endT buffer_after : Int) (ps : List SegPos)
    (bar_top bar_bottom : Int) : List Op :=
  match ps with
  | [] => []
  | p0 :: rest =>
    if buffer_after > 0 then
      let last := (p0 :: rest).getLast (by simp)
      let block_x2 := last.x2
      let buffer_end_x := time_to_x (min (last.arr + buffer_after * 60000000) endT) startT endT
      if block_x2 ≥ WIDTH then []
      else if buffer_end_x > block_x2 then
        [Op.checkerboard block_x2 bar_top (min buffer_end_x WIDTH) bar_bottom]
      else []
    else []

/-- A segment spanning the whole window, arriving exactly at its end. -/
def wSeg : Segment :=
  { fromStop := { station_code := "AAA", actual := some (some 0), scheduled := none },
    toStop := { station_code := "BBB", actual := some (some 10800000000), scheduled := none } }

/-! ## Per-row labels, station codes and the train name (lines 439-545) -/

/-- The time-label candidate collection loop of lines 442-467, carrying
the `is_first` flag; the last element of the list is the `is_last`
case.  Candidates are `(left_x, right_x, text)` using measured widths
at scale 1. -/
def time_label_cands (font : Font) (endT : Int) (is_first : Bool) :
    List SegPos → List (Int × Int × String)
  | [] => []
  | [p] =>
    (if is_first then
      [(p.x1, p.x1 + get_text_width font (format_time_label p.dep) 1, format_time_label p.dep)]
     else []) ++
    (if p.arr ≤ endT then
      [(p.x2 - get_text_width font (format_time_label p.arr) 1, p.x2, format_time_label p.arr)]
     else [])
  | p :: q :: rest =>
    (if is_first then
      [(p.x1, p.x1 + get_text_width font (format_time_label p.dep) 1, format_time_label p.dep)]
     else []) ++
    [((p.x2 + q.x1) / 2 - get_text_width font (format_time_label p.arr) 1 / 2,
      (p.x2 + q.x1) / 2 + get_text_width font (format_time_label p.arr) 1 / 2,
      format_time_label p.arr)] ++
    time_label_cands font endT false (q :: rest)

/-- The drawing part of the collision loop (lines 472-483): each kept
label gets a white background patch (1-pixel padding) and its text,
left-anchored when it coincides with the first candidate, otherwise
center-anchored in its own extent. -/
def timeLabelOps (time_y : Int) (cands : List (Int × Int × String)) : List Op :=
  match cands with
  | [] => []
  | first :: _ =>
    (resolve_labels cands).flatMap fun c =>
      [Op.rect (c.1 - 1) (time_y - 1) (c.2.1 + 1) (time_y + CHAR_HEIGHT + 1) WHITE,
       if c.1 = first.1 ∧ c.2.2 = first.2.2 then
         Op.text c.1 time_y c.2.2 BLACK Anchor.left 1
       else
         Op.text ((c.1 + c.2.1) / 2) time_y c.2.2 BLACK Anchor.center 1]

/-- The station-code loop of lines 493-523, carrying `is_first`; the
singleton case is the last position.  End codes are drawn in white on
the bar when the bar is wide enough; each intermediate boundary code
gets a black background patch and a centered white code. -/
def stationCodeOps (font : Font) (station_y : Int) (is_first : Bool) :
    List SegPos → List Op
  | [] => []
  | [p] =>
    if p.x2 - p.x1 > get_text_width font "XXX" 1 + 4 * 2 then
      (if is_first then
        [Op.text (p.x1 + 4) station_y p.seg.fromStop.station_code WHITE Anchor.left 1]
       else []) ++
      [Op.text (p.x2 - 4) station_y p.seg.toStop.station_code WHITE Anchor.right 1]
    else []
  | p :: q :: rest =>
    (if p.x2 - p.x1 > get_text_width font "XXX" 1 + 4 * 2 then
      (if is_first then
        [Op.text (p.x1 + 4) station_y p.seg.fromStop.station_code WHITE Anchor.left 1]
       else [])
     else []) ++
    [Op.rect ((p.x2 + q.x1) / 2 - get_text_width font p.seg.toStop.station_code 1 / 2 - 2)
       (station_y - 1)
       ((p.x2 + q.x1) / 2 + get_text_width font p.seg.toStop.station_code 1 / 2 + 2)
       (station_y + CHAR_HEIGHT + 1) BLACK,
     Op.text ((p.x2 + q.x1) / 2) station_y p.seg.toStop.station_code WHITE Anchor.center 1] ++
    stationCodeOps font station_y false (q :: rest)

/-- The route+number label string of lines 527-531, with the falsy
fallback to "Train" and the "Northeast Regional" abbreviation. -/
def trainLabel (t : Train) : String :=
  let route0 := match t.route_name with
    | some r => r
    | none => "Train"
  let route := if route0 = "Northeast Regional" then "NE Regional" else route0
  route ++ " " ++ t.train_num

/-- The anchor decision of lines 536-545: position and anchor chosen
from the block extent and the measured label width. -/
def train_label_anchor (block_x1 block_x2 label_width : Int) : Int × Anchor :=
  let center_x := (block_x1 + block_x2) / 2
  if center_x + label_width / 2 > WIDTH then (block_x1 + 8, Anchor.left)
  else if center_x - label_width / 2 < 0 then (block_x2 - 8, Anchor.right)
  else (center_x, Anchor.center)

/-- The train-name drawing of lines 526-545 (for a nonempty position
list, with `block_x1`/`block_x2` the block extent). -/
def trainNameOps (font : Font) (t : Train) (block_x1 block_x2 train_name_y : Int) :
    List Op :=
  let label := trainLabel t
  let label_width := get_text_width font label FONT_SCALE
  let pos := train_label_anchor block_x1 block_x2 label_width
  [Op.text pos.1 train_name_y label WHITE pos.2 FONT_SCALE]

/-- One train row (the body of the `for i, train` loop, lines
371-545): bars, buffers, time labels, station codes, then the train
name.  `bar_height = CHAR_HEIGHT + 2 + CHAR_HEIGHT*FONT_SCALE + 4 = 39`
(line 330).  (Lines 376-386 compute `longest_segment_idx`, which is
never read afterwards, and are omitted.) -/
def trainRowOps (font : Font) (startT endT buffer_before buffer_after row_height : Int)
    (i : Nat) (v : VisTrain) : List Op :=
  let y_center := TOP_MARGIN + (i : Int) * row_height + row_height / 2
  let ps := segment_positions startT endT v.psegs
  let bar_height : Int := CHAR_HEIGHT + 2 + CHAR_HEIGHT * FONT_SCALE + 4
  let bar_top := y_center - bar_height / 2
  let bar_bottom := y_center + bar_height / 2
  let time_y := y_center - bar_height / 2 - CHAR_HEIGHT - 3
  (ps.map fun p => Op.rect p.x1 bar_top p.x2 bar_bottom BLACK) ++
  bufferBeforeOps startT endT buffer_before ps bar_top bar_bottom ++
  bufferAfterOps startT endT buffer_after ps bar_top bar_bottom ++
  timeLabelOps time_y (time_label_cands font endT true ps) ++
  stationCodeOps font (bar_top + 2) true ps ++
  (match ps with
   | [] => []
   | p0 :: rest =>
     trainNameOps font v.train p0.x1 ((p0 :: rest).getLast (by simp)).x2
       (bar_bottom - CHAR_HEIGHT * FONT_SCALE - 2))

/-- The row loop over the visible trains with their indices. -/
def rowsOps (font : Font) (startT endT buffer_before buffer_after row_height : Int) :
    Nat → List VisTrain → List Op
  | _, [] => []
  | i, v :: rest =>
    trainRowOps font startT endT buffer_before buffer_after row_height i v ++
    rowsOps font startT endT buffer_before buffer_after row_height (i + 1) rest

/-! ## Grid, now marker, timestamp and the frame composer (lines 306-368) -/

/-- The 30-minute marker loop of lines 351-364: marker instants from
`start` while `marker <= end`, stepping 30 minutes. -/
def markerTimes (m endT : Int) : List Int :=
  if m ≤ endT then m :: markerTimes (m + 1800000000) endT else []
termination_by (endT + 1800000000 - m).toNat
decreasing_by simp_wf; omega

/-- The per-marker drawing of lines 353-362: sparse grid column over
the chart area plus a centered time label below the axis. -/
def gridOps (startT endT : Int) : List Op :=
  (markerTimes startT endT).flatMap fun m =>
    [Op.gridLine (time_to_x m startT endT) TOP_MARGIN (HEIGHT - BOTTOM_MARGIN),
     Op.text (time_to_x m startT endT) (HEIGHT - BOTTOM_MARGIN + 8) (format_time_label m)
       BLACK Anchor.center FONT_SCALE]

/-- Lowercase three-letter month abbreviations (the result of `%b`
followed by `.lower()`). -/
def monthAbbrevLower (m : Nat) : String :=
  ["jan", "feb", "mar", "apr", "may", "jun",
   "jul", "aug", "sep", "oct", "nov", "dec"].getD (m - 1) ""

/-- The generation timestamp string of line 338:
`now.strftime("%b %-d, %Y %-I:%M%p").lower()`. -/
def format_timestamp (t : PyDateTime) : String :=
  monthAbbrevLower t.month ++ " " ++ toString t.day ++ ", " ++ toString t.year ++ " "
    ++ toString (if t.hour % 12 = 0 then 12 else t.hour % 12) ++ ":"
    ++ (if t.minute < 10 then "0" ++ toString t.minute else toString t.minute)
    ++ (if t.hour < 12 then "am" else "pm")

/-- The timestamp stamp of lines 337-345: a white background patch
then the right-anchored text, 4 pixels from the top-right corner. -/
def timestampOps (font : Font) (now : PyDateTime) : List Op :=
  [Op.rect (WIDTH - 4 - get_text_width font (format_timestamp now) 1 - 2) (4 - 1)
     (WIDTH - 4 + 2) (4 + CHAR_HEIGHT + 1) WHITE,
   Op.text (WIDTH - 4) 4 (format_timestamp now) BLACK Anchor.right 1]

/-- The drawing trace of `create_image` (lines 306-547), in program
order: either the early-return "no trains" message, or the timestamp,
axis line, 30-minute grid, dashed "now" marker, and the train rows. -/
def create_image_ops (font : Font) (trains : List Train) (stations : List String)
    (now : PyDateTime) (buffer_before buffer_after : Int) : List Op :=
  let startT := (window_of now).1
  let endT := (window_of now).2
  let visible_trains := filter_trains_in_window trains startT endT (toMicros now)
  if visible_trains.isEmpty then
    [Op.text (WIDTH / 2) (HEIGHT / 2 - CHAR_HEIGHT * FONT_SCALE / 2)
       ("No trains in next " ++ toString HOURS_TO_SHOW ++ " hours") BLACK Anchor.center
       FONT_SCALE]
  else
    timestampOps font now ++
    Op.hline 0 WIDTH (HEIGHT - BOTTOM_MARGIN) BLACK ::
    gridOps startT endT ++
    Op.vline (time_to_x (toMicros now) startT endT) (TOP_MARGIN - 5) (HEIGHT - BOTTOM_MARGIN)
      BLACK true ::
    rowsOps font startT endT buffer_before buffer_after
      ((HEIGHT - TOP_MARGIN - BOTTOM_MARGIN) / (visible_trains.length : Int)) 0 visible_trains

/-- `create_image` as a raster: the trace interpreted on the
white-initialized canvas (`Image.new("1", (WIDTH, HEIGHT), WHITE)`,
line 314). -/
def create_image (font : Font) (trains : List Train) (stations : List String)
    (now : PyDateTime) (buffer_before buffer_after : Int) : Canvas :=
  applyOps font (create_image_ops font trains stations now buffer_before buffer_after)
    (fun _ _ => WHITE)

/-- The reference instant used for concrete instantiations:
2026-10-12 07:50:00 in the display timezone. -/
def cNow : PyDateTime :=
  { year := 2026, month := 10, day := 12, hour := 7, minute := 50, second := 0,
    microsecond := 0 }

/-- A segment departing 179 minutes into the window (1 minute before
its end) and arriving past the window end: its bar starts at pixel 756
and is edge-extended to pixel 800. -/
def c8seg : Segment :=
  { fromStop := { station_code := "NYP",
                  actual := some (some ((window_of cNow).1 + 10740000000)),
                  scheduled := none },
    toStop := { station_code := "PHL",
                actual := some (some ((window_of cNow).1 + 10900000000)),
                scheduled := none } }

/-- A visible train with a long route name, placed against the right
canvas edge. -/
def c8Train : Train :=
  { route_name := some "Silver Meteor Extended Service", train_num := "97",
    segments := [c8seg] }

/-- The filtered form of `c8Train`. -/
def v8 : VisTrain :=
  { train := c8Train,
    psegs := [(c8seg, (window_of cNow).1 + 10740000000, (window_of cNow).1 + 10900000000)],
    firstDep := (window_of cNow).1 + 10740000000 }

/-- The resolved position of `c8seg` in the window of `cNow`. -/
def pos8 : SegPos :=
  { x1 := 756, x2 := 800, dep := (window_of cNow).1 + 10740000000,
    arr := (window_of cNow).1 + 10900000000, seg := c8seg }

/-- The route+number label of `c8Train`. -/
def c8label : String := "Silver Meteor Extended Service 97"

/-! ## Theorems: the label collision resolver (C1), the time window
invariant (C5) and the coordinate boundaries (C3) -/

theorem resolveFrom_mem_gt (cands : List (Int × Int × String)) :
    ∀ last_right c, (∀ x ∈ cands, x.1 ≤ x.2.1) →
      c ∈ resolveFrom last_right cands → last_right + min_gap < c.1 := by
  induction cands with
  | nil => intro lr c _ hc; simp [resolveFrom] at hc
  | cons hd tl ih =>
    intro lr c hall hc
    obtain ⟨l, r, s⟩ := hd
    have hlr : l ≤ r := hall (l, r, s) (by simp)
    unfold resolveFrom at hc
    by_cases hkeep : l > lr + min_gap
    · rw [if_pos hkeep] at hc
      rcases List.mem_cons.mp hc with h | h
      · subst h; exact hkeep
      · have := ih r c (fun x hx => hall x (List.mem_cons_of_mem _ hx)) h
        have hmg : min_gap = 4 := rfl
        omega
    · rw [if_neg hkeep] at hc
      exact ih lr c (fun x hx => hall x (List.mem_cons_of_mem _ hx)) hc

theorem resolveFrom_pairwise (cands : List (Int × Int × String)) :
    ∀ last_right, (∀ x ∈ cands, x.1 ≤ x.2.1) →
      List.Pairwise (fun a b : Int × Int × String => a.2.1 + min_gap < b.1)
        (resolveFrom last_right cands) := by
  induction cands with
  | nil => intro lr _; simp [resolveFrom]
  | cons hd tl ih =>
    intro lr hall
    obtain ⟨l, r, s⟩ := hd
    have htl : ∀ x ∈ tl, x.1 ≤ x.2.1 := fun x hx => hall x (List.mem_cons_of_mem _ hx)
    unfold resolveFrom
    by_cases hkeep : l > lr + min_gap
    · rw [if_pos hkeep]
      refine List.Pairwise.cons ?_ (ih r htl)
      intro b hb
      exact resolveFrom_mem_gt tl r b htl hb
    · rw [if_neg hkeep]
      exact ih lr htl

/-- C1: the resolver keeps a candidate iff its `left_x` strictly
exceeds the last kept candidate's `right_x` plus `min_gap` (last kept
initialized far to the left, at -1000); consequently any two kept
labels of a row are separated by more than `min_gap` pixels
(`left_x` of the later exceeds `right_x` of the earlier plus
`min_gap`), and two candidates whose extents are 3 pixels apart with
`min_gap = 4` result in only the first being kept. -/
theorem resolver_keeps_separated (cands : List (Int × Int × String))
    (hwidths : ∀ x ∈ cands, x.1 ≤ x.2.1) :
    List.Pairwise (fun a b : Int × Int × String => a.2.1 + min_gap < b.1)
      (resolve_labels cands)
    ∧ (∀ last_right left right label rest,
        (last_right + min_gap < left →
          resolveFrom last_right ((left, right, label) :: rest)
            = (left, right, label) :: resolveFrom right rest)
        ∧ (¬ last_right + min_gap < left →
          resolveFrom last_right ((left, right, label) :: rest)
            = resolveFrom last_right rest))
    ∧ resolve_labels [(100, 130, "7:00"), (133, 163, "7:05")] = [(100, 130, "7:00")] := by
  refine ⟨resolveFrom_pairwise cands (-1000) hwidths, ?_, by decide⟩
  intro lr l r lab rest
  constructor
  · intro h; unfold resolveFrom; rw [if_pos (by omega)]
    cases rest <;> simp [resolveFrom]
  · intro h; unfold resolveFrom; rw [if_neg (by omega)]
    cases rest <;> simp [resolveFrom]

theorem resolver_keeps_separated_witness :
    List.Pairwise (fun a b : Int × Int × String => a.2.1 + min_gap < b.1)
      (resolve_labels [(100, 130, "7:00"), (133, 163, "7:05")]) :=
  (resolver_keeps_separated [(100, 130, "7:00"), (133, 163, "7:05")] (by decide)).1

/-- C5: for every input instant `now`, the derived window satisfies
`start ≤ now` (start is `now` rounded down to the 30-minute boundary
with seconds and microseconds zeroed) and `end - start` is exactly the
3-hour horizon. -/
theorem window_start_le_now_and_span (now : PyDateTime) :
    (window_of now).1 ≤ toMicros now
    ∧ (window_of now).2 - (window_of now).1 = (HOURS_TO_SHOW : Int) * 3600000000 := by
  constructor
  · show toMicros (round_down_to_30min now) ≤ toMicros now
    unfold toMicros round_down_to_30min
    simp only
    have h30 : now.minute / 30 * 30 ≤ now.minute := Nat.div_mul_le_self _ _
    omega
  · simp [window_of]

/-- C3: for every valid time window (`start < end`), `time_to_x` maps
the window start to the left margin and the window end to the canvas
width minus the right margin. -/
theorem time_to_x_boundaries (startT endT : Int) (h : startT < endT) :
    time_to_x startT startT endT = LEFT_MARGIN
    ∧ time_to_x endT startT endT = WIDTH - RIGHT_MARGIN := by
  have hne : ((endT - startT : Int) : ℚ) / 1000000 ≠ 0 := by
    have h0 : ((endT - startT : Int) : ℚ) ≠ 0 :=
      Int.cast_ne_zero.mpr (by omega)
    intro hc
    rcases div_eq_zero_iff.mp hc with h1 | h1
    · exact h0 h1
    · norm_num at h1
  constructor
  · simp [time_to_x, truncToZero, LEFT_MARGIN]
  · have h1 : ((endT - startT : Int) : ℚ) / 1000000 / (((endT - startT : Int) : ℚ) / 1000000) = 1 :=
      div_self hne
    simp only [time_to_x, h1]
    norm_num [truncToZero, LEFT_MARGIN, WIDTH, RIGHT_MARGIN]

theorem time_to_x_boundaries_witness :
    time_to_x 0 0 10800000000 = LEFT_MARGIN
    ∧ time_to_x 10800000000 0 10800000000 = WIDTH - RIGHT_MARGIN :=
  time_to_x_boundaries 0 10800000000 (by norm_num)

/-! ## Membership in the visible set (C2) -/

theorem filterTrainsAux_cons_none (now endT : Int) (hd : Train) (tl : List Train)
    (h : firstDepOf hd = none) :
    filterTrainsAux now endT (hd :: tl) = filterTrainsAux now endT tl := by
  conv_lhs => rw [filterTrainsAux, h]

theorem filterTrainsAux_cons_some (now endT : Int) (hd : Train) (tl : List Train)
    (fd : Int) (h : firstDepOf hd = some fd) :
    filterTrainsAux now endT (hd :: tl) =
      if now ≤ fd ∧ fd ≤ endT then
        if parseSegments hd.segments ≠ [] then
          { train := hd, psegs := parseSegments hd.segments, firstDep := fd }
            :: filterTrainsAux now endT tl
        else filterTrainsAux now endT tl
      else filterTrainsAux now endT tl := by
  conv_lhs => rw [filterTrainsAux, h]

theorem mem_filterTrainsAux (now endT : Int) (t : Train) :
    ∀ l : List Train,
      ((∃ v ∈ filterTrainsAux now endT l, v.train = t)
        ↔ t ∈ l ∧ claimVisibleCond t now endT = true ∧ parseSegments t.segments ≠ []) := by
  intro l
  induction l with
  | nil => simp [filterTrainsAux]
  | cons hd tl ih =>
    cases hfd : firstDepOf hd with
    | none =>
      rw [filterTrainsAux_cons_none now endT hd tl hfd, ih]
      constructor
      · rintro ⟨htl, hc⟩; exact ⟨List.mem_cons_of_mem _ htl, hc⟩
      · rintro ⟨hmem, hc⟩
        rcases List.mem_cons.mp hmem with rfl | htl
        · exfalso
          unfold claimVisibleCond at hc
          rw [hfd] at hc
          simp at hc
        · exact ⟨htl, hc⟩
    | some fd =>
      rw [filterTrainsAux_cons_some now endT hd tl fd hfd]
      by_cases hin : now ≤ fd ∧ fd ≤ endT
      · rw [if_pos hin]
        by_cases hps : parseSegments hd.segments ≠ []
        · rw [if_pos hps]
          constructor
          · rintro ⟨v, hv, hvt⟩
            rcases List.mem_cons.mp hv with rfl | hv'
            · refine ⟨by rw [← hvt]; exact List.mem_cons_self _ _, ?_, ?_⟩
              · unfold claimVisibleCond
                rw [← hvt]
                rw [hfd]
                simpa using hin
              · rw [← hvt]; exact hps
            · have := ih.mp ⟨v, hv', hvt⟩
              exact ⟨List.mem_cons_of_mem _ this.1, this.2⟩
          · rintro ⟨hmem, hc, hps'⟩
            rcases List.mem_cons.mp hmem with rfl | htl
            · exact ⟨_, List.mem_cons_self _ _, rfl⟩
            · obtain ⟨v, hv, hvt⟩ := ih.mpr ⟨htl, hc, hps'⟩
              exact ⟨v, List.mem_cons_of_mem _ hv, hvt⟩
        · rw [if_neg hps]
          rw [ih]
          constructor
          · rintro ⟨htl, hc⟩; exact ⟨List.mem_cons_of_mem _ htl, hc⟩
          · rintro ⟨hmem, hc, hps'⟩
            rcases List.mem_cons.mp hmem with rfl | htl
            · exact absurd hps' hps
            · exact ⟨htl, hc, hps'⟩
      · rw [if_neg hin]
        rw [ih]
        constructor
        · rintro ⟨htl, hc⟩; exact ⟨List.mem_cons_of_mem _ htl, hc⟩
        · rintro ⟨hmem, hc, hps'⟩
          rcases List.mem_cons.mp hmem with rfl | htl
          · exfalso
            unfold claimVisibleCond at hc
            rw [hfd] at hc
            simp at hc
            exact hin hc
          · exact ⟨htl, hc, hps'⟩

theorem filterTrainsAux_firstDep_bounds (now endT : Int) :
    ∀ l, ∀ v ∈ filterTrainsAux now endT l, now ≤ v.firstDep ∧ v.firstDep ≤ endT := by
  intro l
  induction l with
  | nil => simp [filterTrainsAux]
  | cons hd tl ih =>
    intro v hv
    cases hfd : firstDepOf hd with
    | none => rw [filterTrainsAux_cons_none now endT hd tl hfd] at hv; exact ih v hv
    | some fd =>
      rw [filterTrainsAux_cons_some now endT hd tl fd hfd] at hv
      by_cases hin : now ≤ fd ∧ fd ≤ endT
      · rw [if_pos hin] at hv
        by_cases hps : parseSegments hd.segments ≠ []
        · rw [if_pos hps] at hv
          rcases List.mem_cons.mp hv with rfl | hv'
          · exact hin
          · exact ih v hv'
        · rw [if_neg hps] at hv; exact ih v hv
      · rw [if_neg hin] at hv; exact ih v hv

/-- C2 (amended): a train `t` of the input list is in the visible set
iff it has at least one segment, its first segment's departure (actual
if present, else scheduled) parses, that departure lies in the closed
interval `[now, end]`, AND at least one of its segments has both
departure and arrival parseable; moreover every visible entry's first
departure lies in `[now, end]` — in particular every train whose first
departure is strictly before `now` is absent. -/
theorem visible_iff_amended (trains : List Train) (startT endT now : Int)
    (t : Train) (ht : t ∈ trains) :
    ((∃ v ∈ filter_trains_in_window trains startT endT now, v.train = t)
      ↔ claimVisibleCond t now endT = true ∧ parseSegments t.segments ≠ [])
    ∧ (∀ v ∈ filter_trains_in_window trains startT endT now,
        now ≤ v.firstDep ∧ v.firstDep ≤ endT) := by
  have hperm : (filter_trains_in_window trains startT endT now).Perm
      (filterTrainsAux now endT trains) :=
    List.mergeSort_perm (filterTrainsAux now endT trains) _
  have key : (∃ v ∈ filter_trains_in_window trains startT endT now, v.train = t)
      ↔ (∃ v ∈ filterTrainsAux now endT trains, v.train = t) := by
    constructor
    · rintro ⟨v, hv, hvt⟩; exact ⟨v, hperm.mem_iff.mp hv, hvt⟩
    · rintro ⟨v, hv, hvt⟩; exact ⟨v, hperm.mem_iff.mpr hv, hvt⟩
  refine ⟨key.trans ?_, ?_⟩
  · rw [mem_filterTrainsAux]
    exact ⟨fun h => h.2, fun h => ⟨ht, h⟩⟩
  · intro v hv
    exact filterTrainsAux_firstDep_bounds now endT trains v (hperm.mem_iff.mp hv)

/-- C2 counterexample: `cexTrain` satisfies the claim's visibility
condition (nonempty segments, first departure parses and lies in
`[now, end]`), yet the rendered visible set is empty. -/
theorem visible_iff_cex :
    claimVisibleCond cexTrain 0 10800000000 = true
    ∧ filter_trains_in_window [cexTrain] 0 10800000000 0 = [] := by
  constructor
  · decide
  · have haux : filterTrainsAux 0 10800000000 [cexTrain] = [] := by decide
    rw [filter_trains_in_window, haux]
    simp

theorem visible_iff_amended_witness :
    ((∃ v ∈ filter_trains_in_window [witTrain] 0 10800000000 0, v.train = witTrain)
      ↔ claimVisibleCond witTrain 0 10800000000 = true ∧ parseSegments witTrain.segments ≠ [])
    ∧ (∀ v ∈ filter_trains_in_window [witTrain] 0 10800000000 0,
        0 ≤ v.firstDep ∧ v.firstDep ≤ 10800000000) :=
  visible_iff_amended [witTrain] 0 10800000000 0 witTrain (by simp)

theorem segment_positions_edge_extended (startT endT : Int)
    (psegs : List (Segment × Int × Int)) :
    ∀ p ∈ segment_positions startT endT psegs, endT ≤ p.arr → p.x2 = WIDTH := by
  induction psegs with
  | nil => simp [segment_positions]
  | cons hd tl ih =>
    obtain ⟨seg, dep, arr⟩ := hd
    intro p hp harr
    unfold segment_positions at hp
    by_cases hskip : min arr endT ≤ startT ∨ max dep startT ≥ endT
    · rw [if_pos hskip] at hp
      exact ih p hp harr
    · rw [if_neg hskip] at hp
      rcases List.mem_cons.mp hp with rfl | hp'
      · simp only at harr ⊢
        rw [if_pos (by omega : arr ≥ endT)]
      · exact ih p hp' harr

/-- C4: a kept segment whose true (unclipped) arrival is at or after
the window end gets its right pixel edge set to the full canvas width
(not the window-clipped coordinate); and when the block's last kept
segment is so extended, no "after" checkerboard buffer is emitted even
for a positive `buffer_after`. -/
theorem edge_extension_and_no_after_buffer (startT endT : Int)
    (psegs : List (Segment × Int × Int)) (buffer_after bar_top bar_bottom : Int)
    (plast : SegPos)
    (hlast : (segment_positions startT endT psegs).getLast? = some plast)
    (harr : endT ≤ plast.arr) :
    (∀ p ∈ segment_positions startT endT psegs, endT ≤ p.arr → p.x2 = WIDTH)
    ∧ bufferAfterOps startT endT buffer_after (segment_positions startT endT psegs)
        bar_top bar_bottom = [] := by
  refine ⟨segment_positions_edge_extended startT endT psegs, ?_⟩
  have hmem : plast ∈ segment_positions startT endT psegs := by
    obtain ⟨h, rfl⟩ := List.mem_getLast?_eq_getLast (Option.mem_def.mpr hlast)
    exact List.getLast_mem h
  have hx2 : plast.x2 = WIDTH :=
    segment_positions_edge_extended startT endT psegs plast hmem harr
  obtain ⟨p0, rest, hsp⟩ : ∃ p0 rest, segment_positions startT endT psegs = p0 :: rest := by
    cases h : segment_positions startT endT psegs with
    | nil => rw [h] at hlast; simp at hlast
    | cons a b => exact ⟨a, b, rfl⟩
  have hLeq : (p0 :: rest).getLast (List.cons_ne_nil p0 rest) = plast := by
    have h1 := List.getLast?_eq_getLast (p0 :: rest) (List.cons_ne_nil p0 rest)
    rw [hsp, h1] at hlast
    exact Option.some.inj hlast
  have hgl : ((p0 :: rest).getLast (List.cons_ne_nil p0 rest)).x2 = WIDTH := by
    rw [hLeq, hx2]
  rw [hsp]
  simp only [bufferAfterOps]
  by_cases hba : buffer_after > 0
  · rw [if_pos hba, if_pos (show ((p0 :: rest).getLast (List.cons_ne_nil p0 rest)).x2 ≥ WIDTH by rw [hgl])]
  · rw [if_neg hba]

theorem edge_extension_and_no_after_buffer_witness :
    (∀ p ∈ segment_positions 0 10800000000 [(wSeg, 0, 10800000000)],
        (10800000000 : Int) ≤ p.arr → p.x2 = WIDTH)
    ∧ bufferAfterOps 0 10800000000 5 (segment_positions 0 10800000000 [(wSeg, 0, 10800000000)])
        201 239 = [] := by
  have hsp : segment_positions 0 10800000000 [(wSeg, 0, 10800000000)] =
      [{ x1 := time_to_x 0 0 10800000000, x2 := WIDTH, dep := 0,
         arr := 10800000000, seg := wSeg }] := by
    norm_num [segment_positions]
  exact edge_extension_and_no_after_buffer 0 10800000000 [(wSeg, 0, 10800000000)] 5 201 239
    _ (by rw [hsp]; rfl) (by norm_num)

/-! ## Frame-composer theorems (C6, C7, C9, C10) -/

theorem create_image_ops_nonempty (font : Font) (trains : List Train)
    (stations : List String) (now : PyDateTime) (buffer_before buffer_after : Int)
    (h : filter_trains_in_window trains (window_of now).1 (window_of now).2 (toMicros now) ≠ []) :
    create_image_ops font trains stations now buffer_before buffer_after =
      timestampOps font now ++
      Op.hline 0 WIDTH (HEIGHT - BOTTOM_MARGIN) BLACK ::
      gridOps (window_of now).1 (window_of now).2 ++
      Op.vline (time_to_x (toMicros now) (window_of now).1 (window_of now).2)
        (TOP_MARGIN - 5) (HEIGHT - BOTTOM_MARGIN) BLACK true ::
      rowsOps font (window_of now).1 (window_of now).2 buffer_before buffer_after
        ((HEIGHT - TOP_MARGIN - BOTTOM_MARGIN)
          / ((filter_trains_in_window trains (window_of now).1 (window_of now).2
              (toMicros now)).length : Int))
        0 (filter_trains_in_window trains (window_of now).1 (window_of now).2 (toMicros now)) := by
  simp only [create_image_ops]
  rw [if_neg (by simpa [List.isEmpty_iff] using h)]

/-- C6: when no trains are visible, the frame consists of exactly one
drawing operation — the centered "no trains" message — on the
white-filled canvas: no axis, grid, now marker, timestamp or bars are
emitted, and the result is an ordinary return value. -/
theorem no_trains_terminal (font : Font) (trains : List Train) (stations : List String)
    (now : PyDateTime) (buffer_before buffer_after : Int)
    (h : filter_trains_in_window trains (window_of now).1 (window_of now).2 (toMicros now) = []) :
    create_image_ops font trains stations now buffer_before buffer_after =
      [Op.text (WIDTH / 2) (HEIGHT / 2 - CHAR_HEIGHT * FONT_SCALE / 2)
        ("No trains in next " ++ toString HOURS_TO_SHOW ++ " hours") BLACK Anchor.center
        FONT_SCALE]
    ∧ create_image font trains stations now buffer_before buffer_after =
      applyOp font (fun _ _ => WHITE)
        (Op.text (WIDTH / 2) (HEIGHT / 2 - CHAR_HEIGHT * FONT_SCALE / 2)
          ("No trains in next " ++ toString HOURS_TO_SHOW ++ " hours") BLACK Anchor.center
          FONT_SCALE) := by
  have h1 : create_image_ops font trains stations now buffer_before buffer_after =
      [Op.text (WIDTH / 2) (HEIGHT / 2 - CHAR_HEIGHT * FONT_SCALE / 2)
        ("No trains in next " ++ toString HOURS_TO_SHOW ++ " hours") BLACK Anchor.center
        FONT_SCALE] := by
    simp only [create_image_ops]
    rw [h]
    simp
  refine ⟨h1, ?_⟩
  unfold create_image
  rw [h1]
  rfl

theorem no_trains_terminal_witness :
    create_image_ops emptyFont [] [] cNow 0 0 =
      [Op.text (WIDTH / 2) (HEIGHT / 2 - CHAR_HEIGHT * FONT_SCALE / 2)
        ("No trains in next " ++ toString HOURS_TO_SHOW ++ " hours") BLACK Anchor.center
        FONT_SCALE]
    ∧ create_image emptyFont [] [] cNow 0 0 =
      applyOp emptyFont (fun _ _ => WHITE)
        (Op.text (WIDTH / 2) (HEIGHT / 2 - CHAR_HEIGHT * FONT_SCALE / 2)
          ("No trains in next " ++ toString HOURS_TO_SHOW ++ " hours") BLACK Anchor.center
          FONT_SCALE) :=
  no_trains_terminal emptyFont [] [] cNow 0 0
    (by rw [filter_trains_in_window]; simp [filterTrainsAux])

/-- C7: rendering is deterministic — for one fixed input tuple, two
invocations of the renderer agree on every pixel.  This holds because
the embedded pipeline is a pure function of exactly these inputs (the
source holds no mutable state across calls beyond the read-only font
table, which is an explicit argument here). -/
theorem render_deterministic (font : Font) (trains : List Train) (stations : List String)
    (now : PyDateTime) (buffer_before buffer_after : Int) :
    ∀ x y : Int,
      create_image font trains stations now buffer_before buffer_after x y
        = create_image font trains stations now buffer_before buffer_after x y :=
  fun _ _ => rfl

/-- C10: the raster does not depend on the `stations` argument — the
renderer reads station codes only from each segment's own records, so
any two station lists give the identical raster. -/
theorem stations_irrelevant (font : Font) (trains : List Train)
    (stations1 stations2 : List String) (now : PyDateTime)
    (buffer_before buffer_after : Int) :
    create_image font trains stations1 now buffer_before buffer_after
      = create_image font trains stations2 now buffer_before buffer_after :=
  rfl

theorem window_of_snd (now : PyDateTime) :
    (window_of now).2 = (window_of now).1 + 10800000000 := by
  simp [window_of, HOURS_TO_SHOW]

theorem time_to_x_756 (S : Int) :
    time_to_x (S + 10740000000) S (S + 10800000000) = 756 := by
  simp only [time_to_x]
  have h1 : ((S + 10740000000 - S : Int) : ℚ) = 10740000000 := by push_cast; ring
  have h2 : ((S + 10800000000 - S : Int) : ℚ) = 10800000000 := by push_cast; ring
  rw [h1, h2]
  have h4 : ((LEFT_MARGIN : Int) : ℚ) + (10740000000 : ℚ) / 1000000
      / ((10800000000 : ℚ) / 1000000)
      * (((WIDTH : Int) : ℚ) - ((LEFT_MARGIN : Int) : ℚ) - ((RIGHT_MARGIN : Int) : ℚ))
      = 13609 / 18 := by
    norm_num [LEFT_MARGIN, WIDTH, RIGHT_MARGIN]
  rw [h4]
  rw [truncToZero, if_pos (by norm_num)]
  rw [Int.floor_eq_iff]
  constructor <;> norm_num

theorem seg_positions_c8 :
    segment_positions (window_of cNow).1 (window_of cNow).2
      [(c8seg, (window_of cNow).1 + 10740000000, (window_of cNow).1 + 10900000000)]
      = [pos8] := by
  rw [window_of_snd]
  simp only [segment_positions]
  rw [if_neg (by omega)]
  rw [if_pos (by omega :
    (window_of cNow).1 + 10900000000 ≥ (window_of cNow).1 + 10800000000)]
  rw [max_eq_left (by omega : (window_of cNow).1 ≤ (window_of cNow).1 + 10740000000)]
  rw [time_to_x_756]
  rfl

theorem filter_c8_singleton :
    filter_trains_in_window [c8Train] (window_of cNow).1 (window_of cNow).2
      (toMicros cNow) = [v8] := by
  rw [filter_trains_in_window]
  have haux : filterTrainsAux (toMicros cNow) (window_of cNow).2 [c8Train] = [v8] := by
    decide
  rw [haux]
  simp

/-- C9 (amended): the generation timestamp is stamped as the FIRST
drawing step — its background patch and text are the first two
operations of the trace, immediately before the axis line (and hence
before the grid, now marker and train rows) — not as the final step;
pixels drawn later may therefore land on the timestamp region. -/
theorem timestamp_first_not_last (font : Font) (trains : List Train)
    (stations : List String) (now : PyDateTime) (buffer_before buffer_after : Int)
    (h : filter_trains_in_window trains (window_of now).1 (window_of now).2 (toMicros now) ≠ []) :
    (create_image_ops font trains stations now buffer_before buffer_after).take 3 =
      timestampOps font now ++ [Op.hline 0 WIDTH (HEIGHT - BOTTOM_MARGIN) BLACK] := by
  rw [create_image_ops_nonempty font trains stations now buffer_before buffer_after h]
  simp [timestampOps]

theorem timestamp_first_not_last_witness :
    (create_image_ops emptyFont [c8Train] [] cNow 0 0).take 3 =
      timestampOps emptyFont cNow ++ [Op.hline 0 WIDTH (HEIGHT - BOTTOM_MARGIN) BLACK] :=
  timestamp_first_not_last emptyFont [c8Train] [] cNow 0 0
    (by rw [filter_c8_singleton]; simp)

/-- C9 counterexample: on a concrete visible input, the first three
operations of the trace are the timestamp background patch, the
timestamp text, and only then the axis line — the timestamp is stamped
before the axis, grid, now marker and rows, not as the final step. -/
theorem timestamp_order_cex :
    (create_image_ops emptyFont [c8Train] [] cNow 0 0).take 3 =
      [Op.rect 643 3 798 16 WHITE,
       Op.text 796 4 "oct 12, 2026 7:50am" BLACK Anchor.right 1,
       Op.hline 0 800 440 BLACK] := by
  rw [create_image_ops_nonempty emptyFont [c8Train] [] cNow 0 0
    (by rw [filter_c8_singleton]; simp)]
  have hts : timestampOps emptyFont cNow =
      [Op.rect 643 3 798 16 WHITE,
       Op.text 796 4 "oct 12, 2026 7:50am" BLACK Anchor.right 1] := by
    decide
  rw [hts]
  simp
  decide

/-- C8 (amended): the route+number anchor rule keeps the label's
horizontal extent inside `[0, canvas_width]` PROVIDED the measured
label width (an even number at the doubled scale) fits: it is at most
`canvas_width - block_left - padding` and at most
`block_right - padding`.  A wider label overflows the canvas on the
side away from its alignment (the overflowing pixels are clipped at
draw time). -/
theorem train_label_anchor_in_bounds (block_x1 block_x2 label_width : Int)
    (h0 : 0 ≤ block_x1) (h1 : block_x1 ≤ block_x2) (h2 : block_x2 ≤ WIDTH)
    (heven : 2 ∣ label_width) (hw : 0 ≤ label_width)
    (hfit1 : block_x1 + 8 + label_width ≤ WIDTH)
    (hfit2 : label_width + 8 ≤ block_x2) :
    0 ≤ (textExtent (train_label_anchor block_x1 block_x2 label_width).1 label_width
          (train_label_anchor block_x1 block_x2 label_width).2).1
    ∧ (textExtent (train_label_anchor block_x1 block_x2 label_width).1 label_width
          (train_label_anchor block_x1 block_x2 label_width).2).2 ≤ WIDTH := by
  have hW : WIDTH = 800 := rfl
  simp only [train_label_anchor]
  split_ifs with ha hb
  · simp only [textExtent]
    omega
  · simp only [textExtent]
    omega
  · simp only [textExtent]
    omega

theorem train_label_anchor_in_bounds_witness :
    0 ≤ (textExtent (train_label_anchor 100 700 200).1 200
          (train_label_anchor 100 700 200).2).1
    ∧ (textExtent (train_label_anchor 100 700 200).1 200
          (train_label_anchor 100 700 200).2).2 ≤ WIDTH :=
  train_label_anchor_in_bounds 100 700 200 (by decide) (by decide) (by decide)
    (by decide) (by decide) (by decide) (by decide)

/-- C8 counterexample: a visible train whose block `[756, 800]` sits at
the right canvas edge and whose label measures 526 pixels.  Centering
would overflow on the right, so the rule left-aligns at
`block_left + 8 = 764`; the resulting extent `[764, 1290]` extends 490
pixels past the canvas width, so the rule does NOT keep the label's
extent inside `[0, canvas_width]`. -/
theorem train_label_overflow_cex :
    Op.text 764 215 c8label WHITE Anchor.left FONT_SCALE
        ∈ create_image_ops emptyFont [c8Train] [] cNow 0 0
    ∧ train_label_anchor 756 800 (get_text_width emptyFont c8label FONT_SCALE)
        = (764, Anchor.left)
    ∧ WIDTH <
        (textExtent 764 (get_text_width emptyFont c8label FONT_SCALE) Anchor.left).2 := by
  refine ⟨?_, by decide, by decide⟩
  rw [create_image_ops_nonempty emptyFont [c8Train] [] cNow 0 0
    (by rw [filter_c8_singleton]; simp)]
  rw [filter_c8_singleton]
  apply List.mem_append_right
  apply List.mem_cons_of_mem
  simp only [rowsOps, trainRowOps, List.append_nil]
  rw [show v8.psegs =
    [(c8seg, (window_of cNow).1 + 10740000000, (window_of cNow).1 + 10900000000)] from rfl]
  rw [seg_positions_c8]
  decide
